import Mathlib

/-!
Verification of the todo-list-mcp repository against its specification.

The development shallowly embeds the data model (src/models/Todo.ts,
src/models/TodoList.ts), the canonical JSON file data store (the
file-per-list implementation embedded in src/stores/DataStoreFactory.ts),
the schema-level behavior of the SQLite store initialization
(src/stores/SqliteDataStore.ts), the TodoService business logic
(src/services/TodoService.ts), the response formatters
(src/utils/formatters.ts) and the MCP tool handlers (src/index.ts).

Conventions of the embedding:
* Asynchronous methods become pure state-passing functions on a store value;
  the process-wide mutex and the per-file advisory locks only serialize
  operations, so a single operation is a pure state transition.
* I/O faults (unreadable files, lock timeouts, engine failures) are outside
  the model: the file system is represented as well-formed structured data.
  Exceptions thrown by the program logic itself (constraint violations,
  incompatible schema) are modelled with an explicit exception type.
* The JSON backend stores one file per list named todo-list-<id>.json;
  since that naming is injective in the list id, files are keyed directly
  by the list id.
* JavaScript string enums are modelled as Lean Strings together with the
  explicit value lists of the corresponding zod enums.
* Array.prototype.sort with comparator (a, b) => a.seqno - b.seqno is a
  stable ascending sort; it is modelled with insertion sort on seqno,
  which is stable in the same sense.
-/

namespace TodoMCP

/-- The Todo shape of src/models/Todo.ts: identity is the pair
(listId, seqno); title and status are the payload. -/
structure Todo where
  listId : String
  seqno : Nat
  title : String
  status : String
deriving DecidableEq, Repr

/-- The TodoList shape of src/models/TodoList.ts: only an id. -/
structure TodoList where
  id : String
deriving DecidableEq, Repr

/-- The values of the TodoStatus zod enum in src/models/Todo.ts. -/
def TodoStatusValues : List String := ["pending", "completed", "canceled"]

/-- The factory function createTodo of src/models/Todo.ts: builds a Todo
with the given data and seqno and status pending. -/
def TodoModel.createTodo (listId : String) (title : String) (seqno : Nat) : Todo :=
  { listId := listId, seqno := seqno, title := title, status := "pending" }

/-- The updates record passed to DataStore.updateTodo
(Partial of Todo without listId and seqno): optional title and status.
A missing field leaves the old value in place (object spread semantics). -/
structure TodoUpdates where
  title : Option String
  status : Option String
deriving DecidableEq, Repr

/-- Object spread semantics of the store update methods: present update
fields overwrite, listId and seqno are pinned to the existing values. -/
def applyTodoUpdates (t : Todo) (u : TodoUpdates) : Todo :=
  { t with title := u.title.getD t.title, status := u.status.getD t.status }

instance todoSeqnoLeDec : DecidableRel (fun a b : Todo => a.seqno ≤ b.seqno) :=
  fun a b => Nat.decLe a.seqno b.seqno

/-- todos.sort((a, b) => a.seqno - b.seqno): stable ascending sort by seqno. -/
def sortBySeqno (l : List Todo) : List Todo :=
  List.insertionSort (fun a b => a.seqno ≤ b.seqno) l

/-- Constraint kinds of ConstraintViolationException
(src/exceptions/DataStoreExceptions.ts). -/
inductive ConstraintKind where
  | unique
  | foreignKey
  | check
  | notNull
deriving DecidableEq, Repr

/-- The members of the exception taxonomy reachable from the embedded
program logic. The source messages wrap offending ids in quotes; the
messages here carry the same information without the quoting punctuation. -/
inductive DSException where
  | constraintViolation (message : String) (kind : ConstraintKind)
  | incompatibleSchema (message : String) (expected : String) (actual : String)
deriving DecidableEq, Repr

/-- The content of one todo-list-<id>.json file
(interface TodoListData in src/stores/DataStoreFactory.ts). -/
structure TodoListData where
  todoList : TodoList
  todos : List Todo
  version : String
deriving DecidableEq, Repr

/-- State of the canonical JsonFileDataStore (the file-per-list
implementation embedded in src/stores/DataStoreFactory.ts):
the in-memory list cache (todoListCache) and the on-disk files of the
json directory, keyed by list id. -/
structure JsonStore where
  cache : List TodoList
  files : List (String × TodoListData)
deriving DecidableEq, Repr

namespace JsonStore

/-- todoListCache.has(id). -/
def cacheHas (s : JsonStore) (id : String) : Bool :=
  s.cache.any (fun tl => tl.id == id)

/-- todoListCache.get(id). -/
def cacheGet (s : JsonStore) (id : String) : Option TodoList :=
  s.cache.find? (fun tl => tl.id == id)

/-- loadTodoListData: read and parse the file of a list, or undefined when
the file does not exist (ENOENT). -/
def loadTodoListData (s : JsonStore) (listId : String) : Option TodoListData :=
  (s.files.find? (fun p => p.1 == listId)).map (fun p => p.2)

/-- saveTodoListData: atomically rewrite the file of a list with the todos
sorted ascending by seqno and version 2.0.0. -/
def saveTodoListData (s : JsonStore) (listId : String) (tl : TodoList)
    (todos : List Todo) : JsonStore :=
  { s with files :=
      (s.files.filter (fun p => p.1 != listId)) ++
        [(listId, { todoList := tl, todos := sortBySeqno todos, version := "2.0.0" })] }

/-- The todos currently recorded in the file of a list (empty when the
file is absent), as read by loadTodoListData. -/
def fileTodos (s : JsonStore) (listId : String) : List Todo :=
  match loadTodoListData s listId with
  | some d => d.todos
  | none => []

/-- createTodoList: reject a duplicate id with a UNIQUE constraint
violation, otherwise write a fresh file with no todos and cache the id. -/
def createTodoList (s : JsonStore) (tl : TodoList) : Except DSException (TodoList × JsonStore) :=
  if cacheHas s tl.id then
    .error (.constraintViolation ("TodoList already exists: " ++ tl.id) .unique)
  else
    .ok (tl, { (saveTodoListData s tl.id tl []) with cache := s.cache ++ [tl] })

/-- getTodoList: the cache lookup. -/
def getTodoList (s : JsonStore) (id : String) : Option TodoList :=
  cacheGet s id

/-- deleteTodoList: false when the id is not cached; otherwise unlink the
file of the list and drop the id from the cache. -/
def deleteTodoList (s : JsonStore) (id : String) : Bool × JsonStore :=
  if cacheHas s id then
    (true, { cache := s.cache.filter (fun tl => tl.id != id),
             files := s.files.filter (fun p => p.1 != id) })
  else
    (false, s)

/-- createTodo: FOREIGN_KEY violation when the referenced list is not in
the cache; UNIQUE violation when the seqno already exists in the file of
the list; otherwise append and rewrite the file. The non-null assertion
on todoListCache.get is modelled with getD over an unreachable default. -/
def createTodo (s : JsonStore) (todo : Todo) : Except DSException (Todo × JsonStore) :=
  if !(cacheHas s todo.listId) then
    .error (.constraintViolation ("TodoList does not exist: " ++ todo.listId) .foreignKey)
  else
    let todos := fileTodos s todo.listId
    if todos.any (fun t => t.seqno == todo.seqno) then
      .error (.constraintViolation
        ("Todo already exists: " ++ todo.listId ++ " seqno " ++ toString todo.seqno) .unique)
    else
      .ok (todo, saveTodoListData s todo.listId
        ((cacheGet s todo.listId).getD { id := todo.listId }) (todos ++ [todo]))

/-- getTodo: load the file of the list and find the entry by seqno. -/
def getTodo (s : JsonStore) (listId : String) (seqno : Nat) : Option Todo :=
  match loadTodoListData s listId with
  | some d => d.todos.find? (fun t => t.seqno == seqno)
  | none => none

/-- getTodosByListId: the todos of the file of the list, sorted ascending
by seqno; empty when the file is absent. -/
def getTodosByListId (s : JsonStore) (listId : String) : List Todo :=
  match loadTodoListData s listId with
  | some d => sortBySeqno d.todos
  | none => []

/-- findIndex by seqno followed by in-place assignment of the updated
entry: returns the updated todo and the updated array, or none when no
entry has the seqno. -/
def updateBySeqno (seqno : Nat) (u : TodoUpdates) : List Todo → Option (Todo × List Todo)
  | [] => none
  | t :: ts =>
    if t.seqno == seqno then
      some (applyTodoUpdates t u, applyTodoUpdates t u :: ts)
    else
      match updateBySeqno seqno u ts with
      | none => none
      | some (x, ts') => some (x, t :: ts')

/-- updateTodo: undefined when the file or the entry is absent; otherwise
assign the updated entry (listId and seqno pinned) and rewrite the file. -/
def updateTodo (s : JsonStore) (listId : String) (seqno : Nat) (u : TodoUpdates) :
    Option Todo × JsonStore :=
  match loadTodoListData s listId with
  | none => (none, s)
  | some data =>
    match updateBySeqno seqno u data.todos with
    | none => (none, s)
    | some (x, todos') =>
      (some x, saveTodoListData s listId ((cacheGet s listId).getD data.todoList) todos')

/-- deleteTodo: false when the file is absent or nothing was removed;
otherwise filter the entry out and rewrite the file. -/
def deleteTodo (s : JsonStore) (listId : String) (seqno : Nat) : Bool × JsonStore :=
  match loadTodoListData s listId with
  | none => (false, s)
  | some data =>
    let rest := data.todos.filter (fun t => t.seqno != seqno)
    if rest.length < data.todos.length then
      (true, saveTodoListData s listId ((cacheGet s listId).getD data.todoList) rest)
    else
      (false, s)

/-- searchTodosByDate: the current Todo shape has no timestamp fields, so
the implementation returns an empty array unconditionally. -/
def searchTodosByDate (_s : JsonStore) (_dateStr : String) : List Todo :=
  []

end JsonStore

/-- The maximum seqno computation of TodoService.createTodo:
todos.reduce((max, todo) => Math.max(max, todo.seqno), 0). -/
def maxSeqno (todos : List Todo) : Nat :=
  todos.foldl (fun m t => max m t.seqno) 0

namespace TodoService

/-- TodoService.createTodo: read the current todos of the list, assign
seqno = (maximum existing seqno) + 1 (so 1 when the list has none), build
the Todo through the model factory with status pending and persist it.
The dataService singleton is threaded as the explicit store argument. -/
def createTodo (s : JsonStore) (listId : String) (title : String) :
    Except DSException (Todo × JsonStore) :=
  let todos := JsonStore.getTodosByListId s listId
  let newSeqno := maxSeqno todos + 1
  JsonStore.createTodo s (TodoModel.createTodo listId title newSeqno)

/-- TodoService.getTodo: pass-through. -/
def getTodo (s : JsonStore) (listId : String) (seqno : Nat) : Option Todo :=
  JsonStore.getTodo s listId seqno

/-- TodoService.getTodosByListId: pass-through. -/
def getTodosByListId (s : JsonStore) (listId : String) : List Todo :=
  JsonStore.getTodosByListId s listId

/-- TodoService.updateTodo: pass-through update of the status field only. -/
def updateTodo (s : JsonStore) (listId : String) (seqno : Nat) (status : String) :
    Option Todo × JsonStore :=
  JsonStore.updateTodo s listId seqno { title := none, status := some status }

/-- TodoService.deleteTodo: pass-through delete. -/
def deleteTodo (s : JsonStore) (listId : String) (seqno : Nat) : Bool × JsonStore :=
  JsonStore.deleteTodo s listId seqno

/-- TodoService.searchByDate: pass-through to the store search. -/
def searchByDate (s : JsonStore) (dateStr : String) : List Todo :=
  JsonStore.searchTodosByDate s dateStr

end TodoService

/-- A sequence of TodoService.updateTodo calls against one (listId, seqno)
key, applied left to right. -/
def applyStatusUpdates (s : JsonStore) (listId : String) (seqno : Nat) :
    List String → JsonStore
  | [] => s
  | st :: rest =>
    applyStatusUpdates (TodoService.updateTodo s listId seqno st).2 listId seqno rest

/-! ### SQLite store, schema level (src/stores/SqliteDataStore.ts)

The schema-compatibility guard of SqliteDataStore.validateSchema and the
table creation of SqliteDataStore.initSchema are embedded at the schema
level: a database is its catalog of tables and indexes. Pragma settings
(WAL journaling, foreign-key enforcement) have no schema-level content
and are not modelled. -/

/-- One table of the SQLite catalog: a name and its column list, as
reported by PRAGMA table_info. -/
structure SqliteTable where
  name : String
  columns : List String
deriving DecidableEq, Repr

/-- The schema-level state of a SQLite database file. -/
structure SqliteSchema where
  tables : List SqliteTable
  indexes : List String
deriving DecidableEq, Repr

namespace SqliteDataStore

/-- PRAGMA table_info(name): the column list of a table, empty when the
table does not exist. -/
def tableInfo (db : SqliteSchema) (name : String) : List String :=
  ((db.tables.find? (fun t => t.name == name)).map (fun t => t.columns)).getD []

/-- validateSchema: when a todos table already exists but has no listId
column, raise IncompatibleSchemaException carrying the expected structure
and the actual column list found; otherwise do nothing. -/
def validateSchema (db : SqliteSchema) : Except DSException Unit :=
  let info := tableInfo db "todos"
  if info.length > 0 then
    if info.contains "listId" then
      .ok ()
    else
      .error (.incompatibleSchema
        ("Incompatible database schema detected. The existing todos table does not have " ++
          "the required \"listId\" column. Please use a new database file or manually " ++
          "migrate your data to the new schema.")
        "todos table with listId column"
        ("todos table with columns: " ++ String.intercalate ", " info))
  else
    .ok ()

/-- CREATE TABLE IF NOT EXISTS. -/
def createTableIfNotExists (db : SqliteSchema) (t : SqliteTable) : SqliteSchema :=
  if db.tables.any (fun x => x.name == t.name) then db
  else { db with tables := db.tables ++ [t] }

/-- CREATE INDEX IF NOT EXISTS. -/
def createIndexIfNotExists (db : SqliteSchema) (name : String) : SqliteSchema :=
  if db.indexes.contains name then db else { db with indexes := db.indexes ++ [name] }

/-- The todo_lists table created by initSchema. -/
def todoListsTable : SqliteTable :=
  { name := "todo_lists",
    columns := ["id", "name", "description", "createdAt", "updatedAt"] }

/-- The todos table created by initSchema. -/
def todosTable : SqliteTable :=
  { name := "todos",
    columns := ["id", "listId", "title", "description", "completedAt", "createdAt",
                "updatedAt"] }

/-- initSchema: validate the pre-existing schema first; only when
validation passes, create the two tables and the listId index if absent.
The returned schema is the database state after the call, unchanged when
validation raised. -/
def initSchema (db : SqliteSchema) : Except DSException Unit × SqliteSchema :=
  match validateSchema db with
  | .error e => (.error e, db)
  | .ok _ =>
    (.ok (), createIndexIfNotExists
      (createTableIfNotExists (createTableIfNotExists db todoListsTable) todosTable)
      "idx_todos_listId")

end SqliteDataStore

/-- Modelled from the spec: the repository snapshot under src contains no
SQLite store for the current (listId, seqno) Todo model — the
SqliteDataStore.ts present implements the retired timestamp-based model
and does not satisfy the current DataStore contract that the tests and
services use. The row-level behavior of the current-model SQLite backend
is therefore modelled from spec sections 4.2 and 4.5: tables
todo_lists(id) and todos(listId, seqno, title, status) with
PRIMARY KEY (listId, seqno) and FOREIGN KEY (listId) ON DELETE CASCADE,
results of getTodosByListId ordered by seqno, deletions reporting
changes > 0, lookups returning an absent-value sentinel, and
searchTodosByDate unconditionally empty. -/
structure SqliteStore where
  lists : List String
  todos : List Todo
deriving DecidableEq, Repr

namespace SqliteStore

/-- SELECT from todo_lists by primary key. -/
def getTodoList (s : SqliteStore) (id : String) : Option TodoList :=
  if s.lists.contains id then some { id := id } else none

/-- SELECT from todos by the (listId, seqno) primary key. -/
def getTodo (s : SqliteStore) (listId : String) (seqno : Nat) : Option Todo :=
  s.todos.find? (fun t => t.listId == listId && t.seqno == seqno)

/-- SELECT from todos by listId, ordered by seqno. -/
def getTodosByListId (s : SqliteStore) (listId : String) : List Todo :=
  sortBySeqno (s.todos.filter (fun t => t.listId == listId))

/-- UPDATE of the row with the (listId, seqno) key; the sentinel when no
row matches. -/
def updateTodo (s : SqliteStore) (listId : String) (seqno : Nat) (u : TodoUpdates) :
    Option Todo × SqliteStore :=
  match getTodo s listId seqno with
  | none => (none, s)
  | some t =>
    let updated := applyTodoUpdates t u
    (some updated,
      { s with todos := s.todos.map (fun x =>
          if x.listId == listId && x.seqno == seqno then updated else x) })

/-- DELETE of the row with the (listId, seqno) key; reports changes > 0. -/
def deleteTodo (s : SqliteStore) (listId : String) (seqno : Nat) : Bool × SqliteStore :=
  let rest := s.todos.filter (fun t => !(t.listId == listId && t.seqno == seqno))
  (rest.length < s.todos.length, { s with todos := rest })

/-- DELETE of a todo_lists row; the ON DELETE CASCADE foreign key removes
every dependent todos row in the same transaction; reports changes > 0
on the todo_lists delete. -/
def deleteTodoList (s : SqliteStore) (id : String) : Bool × SqliteStore :=
  let restLists := s.lists.filter (fun l => l != id)
  (restLists.length < s.lists.length,
    { lists := restLists, todos := s.todos.filter (fun t => t.listId != id) })

/-- searchTodosByDate: the current Todo shape carries no timestamp, so the
implementation returns an empty result unconditionally. -/
def searchTodosByDate (_s : SqliteStore) (_dateStr : String) : List Todo :=
  []

end SqliteStore

/-! ### Formatters (src/utils/formatters.ts) and the MCP tool layer
(src/index.ts)

A tool response envelope is either a success payload (createSuccessResponse
wraps the data value) or an error payload with isError set
(createErrorResponse wraps the message). The JSON-encoding of the envelope
is not modelled; the payload structure is. -/

/-- The projection produced by formatTodo. -/
structure FormattedTodo where
  listId : String
  seqno : Nat
  title : String
  status : String
deriving DecidableEq, Repr

/-- formatTodo: projects listId, seqno, title, status. -/
def formatTodo (t : Todo) : FormattedTodo :=
  { listId := t.listId, seqno := t.seqno, title := t.title, status := t.status }

/-- One entry of the todos array produced by formatTodoList. -/
structure FormattedTodoItem where
  seqno : Nat
  title : String
  status : String
deriving DecidableEq, Repr

/-- The projection produced by formatTodoList: a listId only for a
non-empty input, the projected todos and their count. -/
structure FormattedTodoList where
  listId : Option String
  todos : List FormattedTodoItem
  count : Nat
deriving DecidableEq, Repr

/-- formatTodoList: an empty input maps to todos empty and count 0 with no
listId; otherwise the listId of the first todo, the projected entries and
the count. -/
def formatTodoList (todos : List Todo) : FormattedTodoList :=
  match todos with
  | [] => { listId := none, todos := [], count := 0 }
  | t :: _ =>
    { listId := some t.listId,
      todos := todos.map (fun x => { seqno := x.seqno, title := x.title, status := x.status }),
      count := todos.length }

/-- The status enum of the get-todos and update-todo tool input schemas in
src/index.ts: z.enum of pending, done, canceled. -/
def toolStatusValues : List String := ["pending", "done", "canceled"]

/-- A failure inside a tool handler: either an explicitly thrown Error
with its message, or a zod .parse rejection inside the handler body
(whose structured message text is not modelled). -/
inductive HandlerError where
  | thrown (message : String)
  | invalidEnum (schema : String) (field : String)
deriving DecidableEq, Repr

/-- The inner payload the get-todos handler hands to
createSuccessResponse: one formatted todo, a formatted list, or the plain
no-todos-found message string. -/
inductive GetTodosData where
  | todoData (t : FormattedTodo)
  | listData (l : FormattedTodoList)
  | msg (s : String)
deriving DecidableEq, Repr

/-- The envelope produced by the get-todos handler. -/
inductive GetTodosResponse where
  | success (data : GetTodosData)
  | error (message : String)
deriving DecidableEq, Repr

/-- The body of the get-todos handler wrapped by safeExecute: a specific
todo when seqno is given (a thrown Error when absent, the no-todos-found
message when a status filter disagrees), otherwise the todos of the list
optionally filtered by status (the no-todos-found message when the match
is empty). -/
def getTodosInner (s : JsonStore) (listId : String) (seqno? : Option Nat)
    (status? : Option String) : Except String GetTodosData :=
  match seqno? with
  | some seqno =>
    match TodoService.getTodo s listId seqno with
    | none =>
      .error ("Todo with seqno " ++ toString seqno ++ " in list " ++ listId ++ " not found")
    | some todo =>
      match status? with
      | some st =>
        if todo.status != st then
          .ok (.msg "No todos found matching the specified criteria.")
        else
          .ok (.todoData (formatTodo todo))
      | none => .ok (.todoData (formatTodo todo))
  | none =>
    let todos := TodoService.getTodosByListId s listId
    let filtered :=
      match status? with
      | some st => todos.filter (fun t => t.status == st)
      | none => todos
    if filtered.length == 0 then
      .ok (.msg "No todos found matching the specified criteria.")
    else
      .ok (.listData (formatTodoList filtered))

/-- The get-todos handler: safeExecute turns a thrown Error into an error
envelope whose message is prefixed with the tool context message,
otherwise the result is wrapped by createSuccessResponse. -/
def getTodosHandler (s : JsonStore) (listId : String) (seqno? : Option Nat)
    (status? : Option String) : GetTodosResponse :=
  match getTodosInner s listId seqno? status? with
  | .error m => .error ("Failed to get todos in list: " ++ m)
  | .ok d => .success d

/-- The get-todos tool invocation including the protocol-level input
schema: seqno must be a positive integer and status must belong to the
tool status enum, otherwise the call is rejected with an
invalid-parameters protocol error before the handler runs (none). The
uuid-format check on listId is orthogonal to every claim and not
modelled. -/
def getTodosToolInvoke (s : JsonStore) (listId : String) (seqno? : Option Nat)
    (status? : Option String) : Option GetTodosResponse :=
  let seqnoOk := match seqno? with | some n => decide (0 < n) | none => true
  let statusOk := match status? with | some st => toolStatusValues.contains st | none => true
  if seqnoOk && statusOk then some (getTodosHandler s listId seqno? status?) else none

/-- The outcome of one update-todo tool call: rejected by the tool input
schema at the protocol layer, an error envelope, or a success envelope. -/
inductive UpdateTodoResult where
  | rejectedByToolSchema
  | errorEnvelope (e : HandlerError)
  | successEnvelope (t : FormattedTodo)
deriving DecidableEq, Repr

/-- The update-todo tool invocation of src/index.ts: the tool input schema
requires a positive seqno and a status drawn from z.enum of pending, done,
canceled; the handler then re-validates through UpdateTodoSchema.parse,
whose status enum is TodoStatusValues (pending, completed, canceled) and
which throws inside safeExecute on any other value; on a passing parse the
service update runs, an absent todo becomes a thrown Error and a present
one a success envelope with the formatted todo. -/
def updateTodoToolInvoke (s : JsonStore) (listId : String) (seqno : Nat)
    (status : String) : UpdateTodoResult × JsonStore :=
  if !(decide (0 < seqno)) || !(toolStatusValues.contains status) then
    (.rejectedByToolSchema, s)
  else if !(TodoStatusValues.contains status) then
    (.errorEnvelope (.invalidEnum "UpdateTodoSchema" "status"), s)
  else
    match TodoService.updateTodo s listId seqno status with
    | (none, s') =>
      (.errorEnvelope (.thrown ("Todo with seqno " ++ toString seqno ++ " in list " ++
        listId ++ " not found")), s')
    | (some u, s') => (.successEnvelope (formatTodo u), s')

/-! ### Concrete states used to instantiate the theorems -/

/-- A sample list. -/
def sampleList : TodoList := { id := "list-1" }

/-- A JSON store holding one list with no todos (the state right after
create-todo-list). -/
def emptyListStore : JsonStore :=
  { cache := [sampleList],
    files := [("list-1", { todoList := sampleList, todos := [], version := "2.0.0" })] }

/-- A sample todo. -/
def sampleTodo1 : Todo := { listId := "list-1", seqno := 1, title := "Buy milk", status := "pending" }

/-- A JSON store holding one list with one pending todo. -/
def oneTodoStore : JsonStore :=
  { cache := [sampleList],
    files := [("list-1", { todoList := sampleList, todos := [sampleTodo1], version := "2.0.0" })] }

/-- A JSON store with no lists at all. -/
def emptyJsonStore : JsonStore := { cache := [], files := [] }

/-- A SQLite store holding one list with one pending todo. -/
def sampleSqliteStore : SqliteStore := { lists := ["list-1"], todos := [sampleTodo1] }

/-- A SQLite store with no rows. -/
def emptySqliteStore : SqliteStore := { lists := [], todos := [] }

/-- A pre-existing database with the legacy todos table (the shape built
by the migration tests): no listId column. -/
def legacySchema : SqliteSchema :=
  { tables := [{ name := "todos",
                 columns := ["id", "title", "description", "completedAt", "createdAt",
                             "updatedAt"] }],
    indexes := [] }

/-- One TodoService.createTodo call against list-1, keeping the old state
on failure (creation in these scenarios always succeeds). -/
def c1CreateStep (s : JsonStore) (title : String) : JsonStore :=
  match TodoService.createTodo s "list-1" title with
  | .ok (_, s') => s'
  | .error _ => s

/-- The store after creating two todos (seqnos 1 and 2) in list-1. -/
def c1StoreTwo : JsonStore := c1CreateStep (c1CreateStep emptyListStore "first") "second"

/-- The store after additionally deleting the todo with the highest
seqno 2. -/
def c1StoreAfterDelete : JsonStore := (TodoService.deleteTodo c1StoreTwo "list-1" 2).2

/-- The seqno the next TodoService.createTodo assigns in that store. -/
def c1NextSeqno : Option Nat :=
  match TodoService.createTodo c1StoreAfterDelete "list-1" "third" with
  | .ok (t, _) => some t.seqno
  | .error _ => none

/-! ### Helper lemmas -/

theorem find?_eq_some_of_unique {p : Todo → Bool} {l : List Todo} {a : Todo}
    (ha : a ∈ l) (hpa : p a = true) (huniq : ∀ x ∈ l, p x = true → x = a) :
    l.find? p = some a := by
  induction l with
  | nil => cases ha
  | cons b t ih =>
    rcases List.mem_cons.mp ha with rfl | hmem
    · rw [List.find?_cons_of_pos _ hpa]
    · by_cases hb : p b = true
      · have hba := huniq b (List.mem_cons_self _ _) hb
        subst hba
        rw [List.find?_cons_of_pos _ hpa]
      · rw [List.find?_cons_of_neg _ hb]
        exact ih hmem (fun x hx hpx => huniq x (List.mem_cons_of_mem _ hx) hpx)

theorem mem_sortBySeqno {l : List Todo} {x : Todo} : x ∈ sortBySeqno l ↔ x ∈ l :=
  List.mem_insertionSort _

theorem find?_sortBySeqno_eq_some {p : Todo → Bool} {l : List Todo} {a : Todo}
    (ha : a ∈ l) (hpa : p a = true) (huniq : ∀ x ∈ l, p x = true → x = a) :
    (sortBySeqno l).find? p = some a :=
  find?_eq_some_of_unique (mem_sortBySeqno.mpr ha) hpa
    (fun x hx hpx => huniq x (mem_sortBySeqno.mp hx) hpx)

theorem map_seqno_sortBySeqno_perm (l : List Todo) :
    List.Perm ((sortBySeqno l).map Todo.seqno) (l.map Todo.seqno) :=
  (List.perm_insertionSort _ l).map _

theorem le_foldl_max (l : List Todo) (acc : Nat) :
    acc ≤ l.foldl (fun m t => max m t.seqno) acc := by
  induction l generalizing acc with
  | nil => exact Nat.le_refl _
  | cons t ts ih => exact le_trans (Nat.le_max_left acc t.seqno) (ih _)

theorem seqno_le_foldl_max {l : List Todo} {x : Todo} (hx : x ∈ l) (acc : Nat) :
    x.seqno ≤ l.foldl (fun m t => max m t.seqno) acc := by
  induction l generalizing acc with
  | nil => cases hx
  | cons t ts ih =>
    rcases List.mem_cons.mp hx with rfl | hmem
    · exact le_trans (Nat.le_max_right acc x.seqno) (le_foldl_max ts _)
    · exact ih hmem _

theorem seqno_le_maxSeqno {l : List Todo} {x : Todo} (hx : x ∈ l) : x.seqno ≤ maxSeqno l :=
  seqno_le_foldl_max hx 0

theorem find?_filter_ne_none (files : List (String × TodoListData)) (id : String) :
    (files.filter (fun p => p.1 != id)).find? (fun p => p.1 == id) = none := by
  rw [List.find?_eq_none]
  intro x hx
  have h2 := (List.mem_filter.mp hx).2
  simp only [bne_iff_ne, ne_eq] at h2
  simp [h2]

theorem loadTodoListData_save_self (s : JsonStore) (listId : String) (tl : TodoList)
    (todos : List Todo) :
    JsonStore.loadTodoListData (JsonStore.saveTodoListData s listId tl todos) listId =
      some { todoList := tl, todos := sortBySeqno todos, version := "2.0.0" } := by
  unfold JsonStore.loadTodoListData JsonStore.saveTodoListData
  rw [List.find?_append, find?_filter_ne_none]
  simp [List.find?]

theorem updateBySeqno_spec {seqno : Nat} (u : TodoUpdates) {l : List Todo} {t : Todo}
    (hnd : (l.map Todo.seqno).Nodup)
    (hf : l.find? (fun x => x.seqno == seqno) = some t) :
    ∃ l', JsonStore.updateBySeqno seqno u l = some (applyTodoUpdates t u, l')
      ∧ l'.map Todo.seqno = l.map Todo.seqno
      ∧ applyTodoUpdates t u ∈ l'
      ∧ ∀ x ∈ l', x.seqno = seqno → x = applyTodoUpdates t u := by
  induction l with
  | nil => simp [List.find?] at hf
  | cons a ts ih =>
    rw [List.map_cons, List.nodup_cons] at hnd
    cases hpa : (a.seqno == seqno) with
    | true =>
      have hfa : t = a := by
        simp only [List.find?, hpa] at hf
        exact (Option.some.inj hf).symm
      subst hfa
      refine ⟨applyTodoUpdates t u :: ts, ?_, ?_, List.mem_cons_self _ _, ?_⟩
      · simp [JsonStore.updateBySeqno, hpa]
      · simp [applyTodoUpdates]
      · intro x hx hxs
        rcases List.mem_cons.mp hx with rfl | hmem
        · rfl
        · have hmm : x.seqno ∈ List.map Todo.seqno ts := List.mem_map_of_mem Todo.seqno hmem
          rw [hxs, ← beq_iff_eq.mp hpa] at hmm
          exact absurd hmm hnd.1
    | false =>
      have hf' : ts.find? (fun x => x.seqno == seqno) = some t := by
        simpa only [List.find?, hpa] using hf
      obtain ⟨l'', h1, h2, h3, h4⟩ := ih hnd.2 hf'
      refine ⟨a :: l'', ?_, ?_, List.mem_cons_of_mem _ h3, ?_⟩
      · simp [JsonStore.updateBySeqno, hpa, h1]
      · simp [h2]
      · intro x hx hxs
        rcases List.mem_cons.mp hx with rfl | hmem
        · rw [beq_iff_eq.symm] at hxs
          rw [hxs] at hpa
          cases hpa
        · exact h4 x hmem hxs

theorem getTodo_some_elim {s : JsonStore} {listId : String} {seqno : Nat} {t : Todo}
    (ht : JsonStore.getTodo s listId seqno = some t) :
    ∃ data, JsonStore.loadTodoListData s listId = some data
      ∧ data.todos.find? (fun x => x.seqno == seqno) = some t := by
  unfold JsonStore.getTodo at ht
  cases hload : JsonStore.loadTodoListData s listId with
  | none => rw [hload] at ht; cases ht
  | some data => rw [hload] at ht; exact ⟨data, rfl, ht⟩

theorem find?_seqno_eq {l : List Todo} {seqno : Nat} {t : Todo}
    (hf : l.find? (fun x => x.seqno == seqno) = some t) : t.seqno = seqno := by
  have := List.find?_some hf
  exact beq_iff_eq.mp this

theorem updateTodo_frame (s : JsonStore) (listId : String) (seqno : Nat) (st : String)
    (t : Todo)
    (hnd : ((JsonStore.fileTodos s listId).map Todo.seqno).Nodup)
    (ht : JsonStore.getTodo s listId seqno = some t) :
    (TodoService.updateTodo s listId seqno st).1 = some { t with status := st }
    ∧ JsonStore.getTodo (TodoService.updateTodo s listId seqno st).2 listId seqno =
        some { t with status := st }
    ∧ ((JsonStore.fileTodos (TodoService.updateTodo s listId seqno st).2 listId).map
        Todo.seqno).Nodup := by
  obtain ⟨data, hload, hf⟩ := getTodo_some_elim ht
  have hndd : (data.todos.map Todo.seqno).Nodup := by
    unfold JsonStore.fileTodos at hnd
    rw [hload] at hnd
    exact hnd
  obtain ⟨l', h1, h2, h3, h4⟩ :=
    updateBySeqno_spec { title := none, status := some st } hndd hf
  have happ : applyTodoUpdates t { title := none, status := some st } =
      { t with status := st } := rfl
  rw [happ] at h1 h3 h4
  have hstep : TodoService.updateTodo s listId seqno st =
      (some { t with status := st },
        JsonStore.saveTodoListData s listId
          ((JsonStore.cacheGet s listId).getD data.todoList) l') := by
    unfold TodoService.updateTodo JsonStore.updateTodo
    rw [hload]
    dsimp only
    rw [h1]
  have hts : t.seqno = seqno := find?_seqno_eq hf
  have hload' := loadTodoListData_save_self s listId
    ((JsonStore.cacheGet s listId).getD data.todoList) l'
  refine ⟨by rw [hstep], ?_, ?_⟩
  · rw [hstep]
    unfold JsonStore.getTodo
    rw [hload']
    exact find?_sortBySeqno_eq_some h3 (by simp [hts]) (fun x hx hpx => h4 x hx (beq_iff_eq.mp hpx))
  · rw [hstep]
    unfold JsonStore.fileTodos
    rw [hload']
    have hperm := (map_seqno_sortBySeqno_perm l').nodup_iff
    rw [hperm, h2]
    exact hndd

theorem fileTodos_seqno_le {s : JsonStore} {listId : String} {x : Todo}
    (hx : x ∈ JsonStore.fileTodos s listId) :
    x.seqno ≤ maxSeqno (JsonStore.getTodosByListId s listId) := by
  unfold JsonStore.fileTodos at hx
  cases hload : JsonStore.loadTodoListData s listId with
  | none => rw [hload] at hx; cases hx
  | some data =>
    rw [hload] at hx
    have hx' : x ∈ sortBySeqno data.todos := mem_sortBySeqno.mpr hx
    have heq : JsonStore.getTodosByListId s listId = sortBySeqno data.todos := by
      unfold JsonStore.getTodosByListId
      rw [hload]
    rw [heq]
    exact seqno_le_maxSeqno hx'

theorem createTodo_ok (s : JsonStore) (listId : String) (title : String)
    (hlist : JsonStore.cacheHas s listId = true) :
    ∃ s', TodoService.createTodo s listId title =
        .ok ({ listId := listId, seqno := maxSeqno (JsonStore.getTodosByListId s listId) + 1,
               title := title, status := "pending" }, s')
      ∧ JsonStore.getTodo s' listId (maxSeqno (JsonStore.getTodosByListId s listId) + 1) =
          some { listId := listId, seqno := maxSeqno (JsonStore.getTodosByListId s listId) + 1,
                 title := title, status := "pending" } := by
  have hfresh : ∀ x ∈ JsonStore.fileTodos s listId,
      x.seqno ≠ maxSeqno (JsonStore.getTodosByListId s listId) + 1 := by
    intro x hx
    have := fileTodos_seqno_le hx
    omega
  have hany : ((JsonStore.fileTodos s listId).any
      (fun t => t.seqno == maxSeqno (JsonStore.getTodosByListId s listId) + 1)) = false := by
    rw [Bool.eq_false_iff]
    intro hcon
    obtain ⟨x, hx, hpx⟩ := List.any_eq_true.mp hcon
    exact hfresh x hx (beq_iff_eq.mp hpx)
  have hstep : TodoService.createTodo s listId title =
      .ok ({ listId := listId, seqno := maxSeqno (JsonStore.getTodosByListId s listId) + 1,
             title := title, status := "pending" },
        JsonStore.saveTodoListData s listId
          ((JsonStore.cacheGet s listId).getD { id := listId })
          (JsonStore.fileTodos s listId ++
            [{ listId := listId, seqno := maxSeqno (JsonStore.getTodosByListId s listId) + 1,
               title := title, status := "pending" }])) := by
    unfold TodoService.createTodo JsonStore.createTodo TodoModel.createTodo
    dsimp only
    rw [if_neg, if_neg]
    · rw [hany]
      exact Bool.false_ne_true
    · rw [hlist]
      exact (Bool.not_true ▸ Bool.false_ne_true)
  refine ⟨_, hstep, ?_⟩
  unfold JsonStore.getTodo
  rw [loadTodoListData_save_self]
  refine find?_sortBySeqno_eq_some (List.mem_append_right _ (List.mem_singleton.mpr rfl))
    (by simp) ?_
  intro x hx hpx
  rcases List.mem_append.mp hx with hmem | hmem
  · exact absurd (beq_iff_eq.mp hpx) (hfresh x hmem)
  · exact List.mem_singleton.mp hmem

theorem updateBySeqno_eq_none {seqno : Nat} (u : TodoUpdates) {l : List Todo}
    (h : l.find? (fun x => x.seqno == seqno) = none) :
    JsonStore.updateBySeqno seqno u l = none := by
  induction l with
  | nil => rfl
  | cons a ts ih =>
    cases hpa : (a.seqno == seqno) with
    | true =>
      simp only [List.find?, hpa] at h
      cases h
    | false =>
      have h' : ts.find? (fun x => x.seqno == seqno) = none := by
        simpa only [List.find?, hpa] using h
      simp [JsonStore.updateBySeqno, hpa, ih h']

theorem applyStatusUpdates_frame (listId : String) (seqno : Nat) (statuses : List String) :
    ∀ (s : JsonStore) (t : Todo),
      ((JsonStore.fileTodos s listId).map Todo.seqno).Nodup →
      JsonStore.getTodo s listId seqno = some t →
      ∃ u, JsonStore.getTodo (applyStatusUpdates s listId seqno statuses) listId seqno = some u
        ∧ u.listId = t.listId ∧ u.seqno = t.seqno ∧ u.title = t.title := by
  induction statuses with
  | nil =>
    intro s t _ ht
    exact ⟨t, ht, rfl, rfl, rfl⟩
  | cons st0 rest ih =>
    intro s t hnd ht
    obtain ⟨_, h2, h3⟩ := updateTodo_frame s listId seqno st0 t hnd ht
    obtain ⟨u, hu, hl, hs, htit⟩ := ih _ _ h3 h2
    exact ⟨u, hu, hl, hs, htit⟩

/-! ### The claims -/

/-- Claim C1, counterexample. The claim asserts that after creating todos
with seqnos 1..n in a list and deleting the todo with the highest seqno n,
the next todo created through TodoService.createTodo receives seqno n + 1.
On the code, with n = 2: after creating seqnos 1 and 2 in list-1 and
deleting seqno 2, the next created todo receives seqno 2 — the freed
number — and not 3. -/
theorem c1_seqno_reuse_counterexample : c1NextSeqno = some 2 ∧ c1NextSeqno ≠ some 3 := by
  decide

/-- Claim C1, amended. TodoService.createTodo assigns the new todo the
seqno one greater than the maximum seqno currently present in the list
(so 1 for an empty list); consequently, after deleting the todo with the
highest seqno n, the next created todo receives the freed seqno n —
seqnos are unique among the todos simultaneously present, but a freed
seqno is reused. -/
theorem c1_seqno_assignment (s : JsonStore) (listId : String) (title : String)
    (hlist : JsonStore.cacheHas s listId = true) :
    ∃ t s', TodoService.createTodo s listId title = .ok (t, s')
      ∧ t.seqno = maxSeqno (JsonStore.getTodosByListId s listId) + 1 := by
  obtain ⟨s', h1, _⟩ := createTodo_ok s listId title hlist
  exact ⟨_, s', h1, rfl⟩

/-- Claim C1, witness: in the concrete post-deletion store (todos 1 and 2
created, todo 2 deleted) the theorem applies and the assigned seqno is
one more than the current maximum 1, i.e. the freed 2. -/
theorem c1_seqno_assignment_witness :
    JsonStore.cacheHas c1StoreAfterDelete "list-1" = true ∧
    (∃ t s', TodoService.createTodo c1StoreAfterDelete "list-1" "third" = .ok (t, s')
      ∧ t.seqno = maxSeqno (JsonStore.getTodosByListId c1StoreAfterDelete "list-1") + 1) :=
  ⟨by decide, c1_seqno_assignment c1StoreAfterDelete "list-1" "third" (by decide)⟩

/-- Claim C2. The update-todo tool input schema in src/index.ts is
z.enum of pending, done, canceled, while the TodoStatus enum of the model
(and the UpdateTodoSchema the handler immediately re-parses with, and the
README) is pending, completed, canceled. Hence status completed is
rejected by the tool input schema before the handler runs, status done
passes the tool schema but is thrown out by UpdateTodoSchema.parse, and
the only statuses accepted end to end are pending and canceled: no
invocation of the update-todo tool can ever set a todo to completed. -/
theorem c2_update_status_enum_bug :
    toolStatusValues.contains "completed" = false
    ∧ TodoStatusValues.contains "completed" = true
    ∧ (updateTodoToolInvoke oneTodoStore "list-1" 1 "completed").1 = .rejectedByToolSchema
    ∧ (updateTodoToolInvoke oneTodoStore "list-1" 1 "done").1 =
        .errorEnvelope (.invalidEnum "UpdateTodoSchema" "status")
    ∧ toolStatusValues.filter (fun st => TodoStatusValues.contains st) =
        ["pending", "canceled"] := by
  decide

/-- Claim C3, counterexample. For an existing list with no todos, the
get-todos handler invoked with only a listId returns a success envelope,
but its data is the no-todos-found message string, not the formatted
empty list value with todos empty and count 0 that the claim asserts
(the handler returns the message before formatTodoList is reached). -/
theorem c3_empty_list_counterexample :
    getTodosHandler emptyListStore "list-1" none none =
      .success (.msg "No todos found matching the specified criteria.")
    ∧ getTodosHandler emptyListStore "list-1" none none ≠
      .success (.listData (formatTodoList [])) := by
  decide

/-- Claim C3, amended. Invoking the get-todos tool with only a listId for
an existing list that currently contains no todos returns a success
envelope whose data is the string No todos found matching the specified
criteria. (not the empty formatted collection). -/
theorem c3_empty_list_message (s : JsonStore) (listId : String)
    (_hlist : JsonStore.cacheHas s listId = true)
    (hempty : JsonStore.getTodosByListId s listId = []) :
    getTodosHandler s listId none none =
      .success (.msg "No todos found matching the specified criteria.") := by
  unfold getTodosHandler getTodosInner TodoService.getTodosByListId
  rw [hempty]
  rfl

/-- Claim C3, witness: the concrete store holding the empty list-1. -/
theorem c3_empty_list_message_witness :
    JsonStore.cacheHas emptyListStore "list-1" = true
    ∧ JsonStore.getTodosByListId emptyListStore "list-1" = []
    ∧ getTodosHandler emptyListStore "list-1" none none =
        .success (.msg "No todos found matching the specified criteria.") :=
  ⟨by decide, by decide, c3_empty_list_message emptyListStore "list-1" (by decide) (by decide)⟩

/-- Claim C4. For every input date string and every store state,
searchTodosByDate returns the empty result in both backends: the JSON
file store (and its service pass-through) and the SQLite store. -/
theorem c4_search_by_date_empty (sj : JsonStore) (sq : SqliteStore) (dateStr : String) :
    JsonStore.searchTodosByDate sj dateStr = []
    ∧ TodoService.searchByDate sj dateStr = []
    ∧ SqliteStore.searchTodosByDate sq dateStr = [] :=
  ⟨rfl, rfl, rfl⟩

/-- Claim C5. For every state in which the list exists and every
non-empty title, TodoService.createTodo succeeds, and re-fetching the
created todo by its (listId, seqno) returns a value structurally
identical to the one returned at creation time, with the given title and
status pending. -/
theorem c5_create_roundtrip (s : JsonStore) (listId : String) (title : String)
    (hlist : JsonStore.cacheHas s listId = true) (_htitle : title ≠ "") :
    ∃ t s', TodoService.createTodo s listId title = .ok (t, s')
      ∧ TodoService.getTodo s' listId t.seqno = some t
      ∧ t.listId = listId ∧ t.title = title ∧ t.status = "pending" := by
  obtain ⟨s', h1, h2⟩ := createTodo_ok s listId title hlist
  exact ⟨_, s', h1, h2, rfl, rfl, rfl⟩

/-- Claim C5, witness: creating Buy milk in the concrete empty list store
and re-fetching it. -/
theorem c5_create_roundtrip_witness :
    JsonStore.cacheHas emptyListStore "list-1" = true ∧ "Buy milk" ≠ ""
    ∧ (∃ t s', TodoService.createTodo emptyListStore "list-1" "Buy milk" = .ok (t, s')
        ∧ TodoService.getTodo s' "list-1" t.seqno = some t
        ∧ t.listId = "list-1" ∧ t.title = "Buy milk" ∧ t.status = "pending") :=
  ⟨by decide, by decide,
    c5_create_roundtrip emptyListStore "list-1" "Buy milk" (by decide) (by decide)⟩

/-- Claim C6. Deleting a list that exists and holds at least one todo
removes every todo of that list: afterwards the todos collection of the
list is empty and every (listId, seqno) lookup returns the absent-value
sentinel, on both backends (on the JSON backend the todos live inside
the deleted file; on the SQLite backend the foreign-key cascade removes
them). -/
theorem c6_cascade_delete (sj : JsonStore) (sq : SqliteStore) (id : String)
    (hj : JsonStore.cacheHas sj id = true)
    (_hjn : JsonStore.getTodosByListId sj id ≠ [])
    (hs : sq.lists.contains id = true)
    (_hsn : SqliteStore.getTodosByListId sq id ≠ []) :
    (JsonStore.deleteTodoList sj id).1 = true
    ∧ JsonStore.getTodosByListId (JsonStore.deleteTodoList sj id).2 id = []
    ∧ (∀ n, JsonStore.getTodo (JsonStore.deleteTodoList sj id).2 id n = none)
    ∧ (SqliteStore.deleteTodoList sq id).1 = true
    ∧ SqliteStore.getTodosByListId (SqliteStore.deleteTodoList sq id).2 id = []
    ∧ (∀ n, SqliteStore.getTodo (SqliteStore.deleteTodoList sq id).2 id n = none) := by
  have hdel : JsonStore.deleteTodoList sj id =
      (true, { cache := sj.cache.filter (fun tl => tl.id != id),
               files := sj.files.filter (fun p => p.1 != id) }) := by
    unfold JsonStore.deleteTodoList
    rw [hj]
    rfl
  have hloadnone : JsonStore.loadTodoListData
      { cache := sj.cache.filter (fun tl => tl.id != id),
        files := sj.files.filter (fun p => p.1 != id) } id = none := by
    unfold JsonStore.loadTodoListData
    rw [find?_filter_ne_none]
    rfl
  have hmem : id ∈ sq.lists := by simpa using hs
  have hlt : (sq.lists.filter (fun l => l != id)).length < sq.lists.length :=
    List.length_filter_lt_length_iff_exists.mpr ⟨id, hmem, by simp⟩
  refine ⟨by rw [hdel], ?_, ?_, ?_, ?_, ?_⟩
  · rw [hdel]
    unfold JsonStore.getTodosByListId
    rw [hloadnone]
  · intro n
    rw [hdel]
    unfold JsonStore.getTodo
    rw [hloadnone]
  · unfold SqliteStore.deleteTodoList
    dsimp only
    exact decide_eq_true hlt
  · unfold SqliteStore.deleteTodoList SqliteStore.getTodosByListId
    dsimp only
    have hnil : (sq.todos.filter (fun t => t.listId != id)).filter
        (fun t => t.listId == id) = [] := by
      rw [List.filter_eq_nil_iff]
      intro x hx
      have h2 := (List.mem_filter.mp hx).2
      simp only [bne_iff_ne, ne_eq] at h2
      simp [h2]
    rw [hnil]
    rfl
  · intro n
    unfold SqliteStore.deleteTodoList SqliteStore.getTodo
    dsimp only
    rw [List.find?_eq_none]
    intro x hx
    have h2 := (List.mem_filter.mp hx).2
    simp only [bne_iff_ne, ne_eq] at h2
    simp [h2]

/-- Claim C6, witness: the concrete one-list one-todo stores. -/
theorem c6_cascade_delete_witness :
    JsonStore.cacheHas oneTodoStore "list-1" = true
    ∧ JsonStore.getTodosByListId oneTodoStore "list-1" ≠ []
    ∧ sampleSqliteStore.lists.contains "list-1" = true
    ∧ SqliteStore.getTodosByListId sampleSqliteStore "list-1" ≠ []
    ∧ ((JsonStore.deleteTodoList oneTodoStore "list-1").1 = true
      ∧ JsonStore.getTodosByListId (JsonStore.deleteTodoList oneTodoStore "list-1").2
          "list-1" = []
      ∧ (∀ n, JsonStore.getTodo (JsonStore.deleteTodoList oneTodoStore "list-1").2
          "list-1" n = none)
      ∧ (SqliteStore.deleteTodoList sampleSqliteStore "list-1").1 = true
      ∧ SqliteStore.getTodosByListId
          (SqliteStore.deleteTodoList sampleSqliteStore "list-1").2 "list-1" = []
      ∧ (∀ n, SqliteStore.getTodo (SqliteStore.deleteTodoList sampleSqliteStore "list-1").2
          "list-1" n = none)) :=
  ⟨by decide, by decide, by decide, by decide,
    c6_cascade_delete oneTodoStore sampleSqliteStore "list-1"
      (by decide) (by decide) (by decide) (by decide)⟩

/-- Claim C7. Lookups against identifiers that name no existing resource
return the absent-value sentinel and deletions return false, with no
exception raised, on both backends: getTodoList of an uncached id is
none, deleting an absent (already deleted) list returns false and leaves
the state untouched, updateTodo and deleteTodo of an absent
(listId, seqno) return the sentinel and false. The throw sites of these
operations in the source are I/O-level only (lock acquisition, unlink,
engine faults), which lie outside the embedding. -/
theorem c7_absent_resources (sj : JsonStore) (sq : SqliteStore) (id : String)
    (listId : String) (seqno : Nat) (u : TodoUpdates)
    (hjid : JsonStore.cacheHas sj id = false)
    (hjt : JsonStore.getTodo sj listId seqno = none)
    (hsid : sq.lists.contains id = false)
    (hst : SqliteStore.getTodo sq listId seqno = none) :
    JsonStore.getTodoList sj id = none
    ∧ JsonStore.deleteTodoList sj id = (false, sj)
    ∧ JsonStore.updateTodo sj listId seqno u = (none, sj)
    ∧ JsonStore.deleteTodo sj listId seqno = (false, sj)
    ∧ SqliteStore.getTodoList sq id = none
    ∧ (SqliteStore.deleteTodoList sq id).1 = false
    ∧ SqliteStore.updateTodo sq listId seqno u = (none, sq)
    ∧ SqliteStore.deleteTodo sq listId seqno = (false, sq) := by
  have hjanyf : ∀ tl ∈ sj.cache, ¬(tl.id == id) = true := by
    intro tl htl
    exact List.any_eq_false.mp hjid tl htl
  refine ⟨?_, ?_, ?_, ?_, ?_, ?_, ?_, ?_⟩
  · unfold JsonStore.getTodoList JsonStore.cacheGet
    exact List.find?_eq_none.mpr hjanyf
  · unfold JsonStore.deleteTodoList
    rw [hjid]
    rfl
  · unfold JsonStore.updateTodo
    cases hload : JsonStore.loadTodoListData sj listId with
    | none => rfl
    | some data =>
      have hf : data.todos.find? (fun x => x.seqno == seqno) = none := by
        unfold JsonStore.getTodo at hjt
        rw [hload] at hjt
        exact hjt
      dsimp only
      rw [updateBySeqno_eq_none u hf]
  · unfold JsonStore.deleteTodo
    cases hload : JsonStore.loadTodoListData sj listId with
    | none => rfl
    | some data =>
      have hf : data.todos.find? (fun x => x.seqno == seqno) = none := by
        unfold JsonStore.getTodo at hjt
        rw [hload] at hjt
        exact hjt
      have hall : ∀ x ∈ data.todos, (x.seqno != seqno) = true := by
        intro x hx
        have := List.find?_eq_none.mp hf x hx
        simpa using this
      dsimp only
      rw [List.filter_eq_self.mpr hall, if_neg (Nat.lt_irrefl _)]
  · unfold SqliteStore.getTodoList
    rw [hsid]
    rfl
  · have hnm : id ∉ sq.lists := by simpa using hsid
    have hall : ∀ l ∈ sq.lists, (l != id) = true := by
      intro l hl
      have : l ≠ id := fun he => hnm (he ▸ hl)
      simpa using this
    unfold SqliteStore.deleteTodoList
    dsimp only
    rw [List.filter_eq_self.mpr hall]
    exact decide_eq_false (Nat.lt_irrefl _)
  · unfold SqliteStore.updateTodo
    rw [hst]
  · have hall : ∀ x ∈ sq.todos, (!(x.listId == listId && x.seqno == seqno)) = true := by
      intro x hx
      have hx2 : ¬(x.listId == listId && x.seqno == seqno) = true := by
        unfold SqliteStore.getTodo at hst
        exact List.find?_eq_none.mp hst x hx
      rw [Bool.eq_false_iff.mpr hx2]
      rfl
    unfold SqliteStore.deleteTodo
    dsimp only
    rw [List.filter_eq_self.mpr hall]
    exact Prod.ext_iff.mpr ⟨decide_eq_false (Nat.lt_irrefl _), rfl⟩

/-- Claim C7, witness: the empty stores and the key list-1 seqno 1. -/
theorem c7_absent_resources_witness :
    JsonStore.cacheHas emptyJsonStore "list-1" = false
    ∧ JsonStore.getTodo emptyJsonStore "list-1" 1 = none
    ∧ emptySqliteStore.lists.contains "list-1" = false
    ∧ SqliteStore.getTodo emptySqliteStore "list-1" 1 = none
    ∧ (JsonStore.getTodoList emptyJsonStore "list-1" = none
      ∧ JsonStore.deleteTodoList emptyJsonStore "list-1" = (false, emptyJsonStore)
      ∧ JsonStore.updateTodo emptyJsonStore "list-1" 1
          { title := none, status := some "completed" } = (none, emptyJsonStore)
      ∧ JsonStore.deleteTodo emptyJsonStore "list-1" 1 = (false, emptyJsonStore)
      ∧ SqliteStore.getTodoList emptySqliteStore "list-1" = none
      ∧ (SqliteStore.deleteTodoList emptySqliteStore "list-1").1 = false
      ∧ SqliteStore.updateTodo emptySqliteStore "list-1" 1
          { title := none, status := some "completed" } = (none, emptySqliteStore)
      ∧ SqliteStore.deleteTodo emptySqliteStore "list-1" 1 = (false, emptySqliteStore)) :=
  ⟨by decide, by decide, by decide, by decide,
    c7_absent_resources emptyJsonStore emptySqliteStore "list-1" "list-1" 1
      { title := none, status := some "completed" }
      (by decide) (by decide) (by decide) (by decide)⟩

/-- Claim C8. Initializing the SQLite schema against a pre-existing
database whose todos table exists but lacks the listId column raises
IncompatibleSchema carrying the expected structure and the actual column
list found, and the database state after the failed call is the input
state unchanged: validateSchema runs before any CREATE statement, so no
table is created or altered. -/
theorem c8_incompatible_schema (db : SqliteSchema)
    (hexists : SqliteDataStore.tableInfo db "todos" ≠ [])
    (hnolist : (SqliteDataStore.tableInfo db "todos").contains "listId" = false) :
    SqliteDataStore.initSchema db =
      (.error (.incompatibleSchema
        ("Incompatible database schema detected. The existing todos table does not have " ++
          "the required \"listId\" column. Please use a new database file or manually " ++
          "migrate your data to the new schema.")
        "todos table with listId column"
        ("todos table with columns: " ++
          String.intercalate ", " (SqliteDataStore.tableInfo db "todos"))), db) := by
  have hval : SqliteDataStore.validateSchema db =
      .error (.incompatibleSchema
        ("Incompatible database schema detected. The existing todos table does not have " ++
          "the required \"listId\" column. Please use a new database file or manually " ++
          "migrate your data to the new schema.")
        "todos table with listId column"
        ("todos table with columns: " ++
          String.intercalate ", " (SqliteDataStore.tableInfo db "todos"))) := by
    unfold SqliteDataStore.validateSchema
    dsimp only
    rw [if_pos (List.length_pos.mpr hexists), hnolist]
    rfl
  unfold SqliteDataStore.initSchema
  rw [hval]

/-- Claim C8, witness: the legacy-shaped database built by the migration
tests (columns id, title, description, completedAt, createdAt,
updatedAt). -/
theorem c8_incompatible_schema_witness :
    SqliteDataStore.tableInfo legacySchema "todos" ≠ []
    ∧ (SqliteDataStore.tableInfo legacySchema "todos").contains "listId" = false
    ∧ SqliteDataStore.initSchema legacySchema =
      (.error (.incompatibleSchema
        ("Incompatible database schema detected. The existing todos table does not have " ++
          "the required \"listId\" column. Please use a new database file or manually " ++
          "migrate your data to the new schema.")
        "todos table with listId column"
        ("todos table with columns: " ++
          String.intercalate ", " (SqliteDataStore.tableInfo legacySchema "todos"))),
        legacySchema) :=
  ⟨by decide, by decide, c8_incompatible_schema legacySchema (by decide) (by decide)⟩

/-- Claim C9. Updating an existing todo changes its status field only:
a single TodoService.updateTodo returns the todo with the requested
status and the listId, seqno and title of the pre-update value, and
after any sequence of status updates against the key the stored todo
still carries the original listId, seqno and title. The seqnos of the
file of the list are pairwise distinct, which every reachable state
satisfies by the creation-time uniqueness check. -/
theorem c9_update_changes_status_only (s : JsonStore) (listId : String) (seqno : Nat)
    (st : String) (statuses : List String) (t : Todo)
    (hnd : ((JsonStore.fileTodos s listId).map Todo.seqno).Nodup)
    (ht : TodoService.getTodo s listId seqno = some t) :
    (TodoService.updateTodo s listId seqno st).1 = some { t with status := st }
    ∧ ∃ u, TodoService.getTodo (applyStatusUpdates s listId seqno statuses) listId seqno =
        some u ∧ u.listId = t.listId ∧ u.seqno = t.seqno ∧ u.title = t.title := by
  refine ⟨(updateTodo_frame s listId seqno st t hnd ht).1, ?_⟩
  exact applyStatusUpdates_frame listId seqno statuses s t hnd ht

/-- Claim C9, witness: the concrete one-todo store under the update to
completed and the update sequence completed, canceled, pending. -/
theorem c9_update_changes_status_only_witness :
    ((JsonStore.fileTodos oneTodoStore "list-1").map Todo.seqno).Nodup
    ∧ TodoService.getTodo oneTodoStore "list-1" 1 = some sampleTodo1
    ∧ ((TodoService.updateTodo oneTodoStore "list-1" 1 "completed").1 =
        some { sampleTodo1 with status := "completed" }
      ∧ ∃ u, TodoService.getTodo
          (applyStatusUpdates oneTodoStore "list-1" 1 ["completed", "canceled", "pending"])
          "list-1" 1 = some u
        ∧ u.listId = sampleTodo1.listId ∧ u.seqno = sampleTodo1.seqno
        ∧ u.title = sampleTodo1.title) :=
  ⟨by decide, by decide,
    c9_update_changes_status_only oneTodoStore "list-1" 1 "completed"
      ["completed", "canceled", "pending"] sampleTodo1 (by decide) (by decide)⟩

/-- Claim C10. For a get-todos call carrying both a seqno and a status
filter from the tool status enum: when the todo with that (listId, seqno)
exists but its status differs from the requested one, the tool returns a
success envelope whose data is the string No todos found matching the
specified criteria.; an error envelope is returned exactly when the todo
with that (listId, seqno) does not exist. -/
theorem c10_seqno_status_filter (s : JsonStore) (listId : String) (seqno : Nat)
    (st : String) (hseq : 0 < seqno) (hst : toolStatusValues.contains st = true) :
    (∀ t, TodoService.getTodo s listId seqno = some t → t.status ≠ st →
      getTodosToolInvoke s listId (some seqno) (some st) =
        some (.success (.msg "No todos found matching the specified criteria.")))
    ∧ ((∃ m, getTodosToolInvoke s listId (some seqno) (some st) = some (.error m))
        ↔ TodoService.getTodo s listId seqno = none) := by
  have hgate : getTodosToolInvoke s listId (some seqno) (some st) =
      some (getTodosHandler s listId (some seqno) (some st)) := by
    unfold getTodosToolInvoke
    dsimp only
    rw [decide_eq_true hseq, hst]
    rfl
  constructor
  · intro t ht hne
    rw [hgate]
    unfold getTodosHandler getTodosInner
    dsimp only
    rw [ht]
    dsimp only
    rw [if_pos (bne_iff_ne.mpr hne)]
  · constructor
    · rintro ⟨m, hm⟩
      cases hgt : TodoService.getTodo s listId seqno with
      | none => rfl
      | some t =>
        rw [hgate] at hm
        unfold getTodosHandler getTodosInner at hm
        dsimp only at hm
        rw [hgt] at hm
        dsimp only at hm
        cases htst : (t.status != st) with
        | true => rw [htst] at hm; cases hm
        | false => rw [htst] at hm; cases hm
    · intro hnone
      rw [hgate]
      unfold getTodosHandler getTodosInner
      dsimp only
      rw [hnone]
      exact ⟨_, rfl⟩

/-- Claim C10, witness: the one-todo store (status pending) queried with
seqno 1 and the status filter done. -/
theorem c10_seqno_status_filter_witness :
    0 < 1 ∧ toolStatusValues.contains "done" = true
    ∧ ((∀ t, TodoService.getTodo oneTodoStore "list-1" 1 = some t → t.status ≠ "done" →
        getTodosToolInvoke oneTodoStore "list-1" (some 1) (some "done") =
          some (.success (.msg "No todos found matching the specified criteria.")))
      ∧ ((∃ m, getTodosToolInvoke oneTodoStore "list-1" (some 1) (some "done") =
            some (.error m))
          ↔ TodoService.getTodo oneTodoStore "list-1" 1 = none)) :=
  ⟨by decide, by decide,
    c10_seqno_status_filter oneTodoStore "list-1" 1 "done" (by decide) (by decide)⟩

end TodoMCP
